import Mathlib

/-!
Verification of the Job Supervisor core of the video-interval-cutter
repository (src/main.py) against its natural-language specification.

The Python code is shallowly embedded: each relevant method of
VideoProcessor / VideoIntervalCutter becomes a pure Lean function, Qt
signal emissions and OS side effects (child-process signals, file
deletion, process spawn) become explicit values of an action type, and
Python floats are modelled as exact rationals.  Regular-expression
digits are modelled as ASCII digits (the realistic domain of the
supervised tool's output).
-/

namespace VideoCutter

/-- Whitespace class of the supervised tool's output, modelling the
regex class backslash-s and str.strip on ASCII text. -/
def isWs (c : Char) : Bool :=
  c == ' ' || c == '\t' || c == '\n' || c == '\r' || c == '\x0b' || c == '\x0c'

/-- Numeric value of an ASCII digit character. -/
def digitVal (c : Char) : ℕ := c.toNat - 48

/-- Does the pattern occur at the very start of the text? -/
def startsWithL : List Char → List Char → Bool
  | [], _ => true
  | _ :: _, [] => false
  | p :: ps, c :: cs => (p == c) && startsWithL ps cs

/-- Does the pattern occur anywhere in the text?  This is Python's
substring test (the `in` operator on str). -/
def hasSubL (pat : List Char) : List Char → Bool
  | [] => startsWithL pat []
  | c :: cs => startsWithL pat (c :: cs) || hasSubL pat cs

/-- Substring test on strings, modelling Python's `pat in s`. -/
def hasSubS (pat s : String) : Bool := hasSubL pat.data s.data

/-- Truthiness of line.strip() in Python: the line holds at least one
non-whitespace character. -/
def nonBlank (line : String) : Bool := line.data.any (fun c => !isWs c)

/-- Two consecutive ASCII digits at the start of the text, with the rest. -/
def two_digits : List Char → Option (ℕ × List Char)
  | a :: b :: rest =>
    if a.isDigit && b.isDigit then some (10 * digitVal a + digitVal b, rest) else none
  | _ => none

/-- The regex time=(dd):(dd):(dd).(dd) of parse_ffmpeg_progress
(src/main.py line 129) matched at the start of the text: the four
two-digit groups (hours, minutes, seconds, hundredths). -/
def timeAt : List Char → Option (ℕ × ℕ × ℕ × ℕ)
  | 't' :: 'i' :: 'm' :: 'e' :: '=' :: rest =>
    match two_digits rest with
    | some (h, r1) =>
      match r1 with
      | ':' :: r2 =>
        match two_digits r2 with
        | some (m, r3) =>
          match r3 with
          | ':' :: r4 =>
            match two_digits r4 with
            | some (s, r5) =>
              match r5 with
              | '.' :: r6 =>
                match two_digits r6 with
                | some (f, _) => some (h, m, s, f)
                | none => none
              | _ => none
            | none => none
          | _ => none
        | none => none
      | _ => none
    | none => none
  | _ => none

/-- re.search for the time pattern: the first position where it matches. -/
def timeScan : List Char → Option (ℕ × ℕ × ℕ × ℕ)
  | [] => none
  | c :: rest =>
    match timeAt (c :: rest) with
    | some r => some r
    | none => timeScan rest

/-- VideoProcessor.parse_ffmpeg_progress (src/main.py lines 126-138):
searches the line for time=HH:MM:SS.hh and converts it to seconds;
any other line yields no signal.  The Python variable named
milliseconds actually holds hundredths and is divided by 100. -/
def parse_ffmpeg_progress (line : String) : Option ℚ :=
  match timeScan line.data with
  | some (h, m, s, f) => some ((h : ℚ) * 3600 + (m : ℚ) * 60 + (s : ℚ) + (f : ℚ) / 100)
  | none => none

/-- Greedy run of digits with an accumulator, for the frame counter. -/
def digitsVal : List Char → ℕ → ℕ
  | c :: cs, acc => if c.isDigit then digitsVal cs (10 * acc + digitVal c) else acc
  | [], acc => acc

/-- After the literal frame=, skip whitespace and read at least one digit. -/
def frameNum : List Char → Option ℕ
  | [] => none
  | c :: cs =>
    if isWs c then frameNum cs
    else if c.isDigit then some (digitsVal cs (digitVal c))
    else none

/-- The regex frame= backslash-s* (d+) matched at the start of the text. -/
def frameAt : List Char → Option ℕ
  | 'f' :: 'r' :: 'a' :: 'm' :: 'e' :: '=' :: rest => frameNum rest
  | _ => none

/-- re.search for the frame pattern: the first position where it matches. -/
def frameScan : List Char → Option ℕ
  | [] => none
  | c :: rest =>
    match frameAt (c :: rest) with
    | some n => some n
    | none => frameScan rest

/-- Python's int() applied to a (here: exact rational) number: truncation
toward zero. -/
def pyInt (q : ℚ) : ℤ := if 0 ≤ q then ⌊q⌋ else ⌈q⌉

/-- Floor-based modulo on rationals: Python's float % and the supervised
tool's expression mod(x,y) (both are x - y * floor(x/y) for y positive). -/
def vmod (t c : ℚ) : ℚ := t - c * ⌊t / c⌋

/-- Documented semantics of the external transcoder's expression
between(x, lo, hi): 1 exactly when lo <= x <= hi, inclusive at both
endpoints. -/
def ffBetween (x lo hi : ℚ) : Bool := decide (lo ≤ x ∧ x ≤ hi)

/-- The sample-retention predicate encoded by the emitted select/aselect
filter expression: between(mod(t, take+skip), 0, take). -/
def selectKeeps (take skip : ℕ) (t : ℚ) : Bool :=
  ffBetween (vmod t ((take : ℚ) + (skip : ℚ))) 0 (take : ℚ)

/-- The percentage computed in the read loop (src/main.py line 289):
min(int((current_time / total_duration) * 100), 100). -/
def progressOf (dur : ℚ) (t : ℚ) : ℤ := min (pyInt (t / dur * 100)) 100

/-- Python's format d with width 2 and zero fill, for the time display. -/
def pad2 (n : ℤ) : String := if 0 ≤ n ∧ n < 10 then "0" ++ toString n else toString n

/-- VideoProcessor.format_time (src/main.py lines 334-339). -/
def format_time (s : ℚ) : String :=
  pad2 ⌊s / 3600⌋ ++ ":" ++ pad2 ⌊vmod s 3600 / 60⌋ ++ ":" ++ pad2 ⌊vmod s 60⌋

/-- A Qt signal emission of VideoProcessor: the event stream seen by
subscribers.  finished is the terminal lifecycle event (its Bool is the
success flag); cancelledSig and pausedSig are the cancelled and paused
signals; progress carries the integer percent. -/
inductive Event where
  | progress (p : ℤ)
  | status (s : String)
  | timeInfo (s : String)
  | pausedSig
  | cancelledSig
  | finished (ok : Bool) (msg : String)
deriving DecidableEq, Repr

/-- An observable action of the supervisor: a Qt emission, an OS signal
to the child process, process spawn/termination/wait, output-file
removal, or a logged (printed) cleanup warning. -/
inductive Act where
  | emit (e : Event)
  | sigStop
  | sigCont
  | termChild
  | waitChild
  | removeOutput
  | logMsg (s : String)
  | spawn (cmd : List String)
deriving DecidableEq, Repr

/-- Host platform as reported by platform.system(). -/
inductive Platform where
  | darwin
  | windows
  | linux
  | other
deriving DecidableEq, Repr

/-- VideoProcessor.get_optimal_encoder (src/main.py lines 93-124).
probe = none models the capability subprocess raising an exception;
probe = some s is the raw stdout text that is substring-matched. -/
def get_optimal_encoder (plat : Platform) (probe : Option String) : String × String :=
  match probe with
  | none => ("libx264", "auto")
  | some encs =>
    match plat with
    | Platform.darwin =>
      if hasSubS "h264_videotoolbox" encs then ("h264_videotoolbox", "videotoolbox")
      else ("libx264", "auto")
    | Platform.windows =>
      if hasSubS "h264_nvenc" encs then ("h264_nvenc", "cuda")
      else if hasSubS "h264_qsv" encs then ("h264_qsv", "qsv")
      else ("libx264", "auto")
    | Platform.linux =>
      if hasSubS "h264_nvenc" encs then ("h264_nvenc", "cuda")
      else if hasSubS "h264_vaapi" encs then ("h264_vaapi", "vaapi")
      else ("libx264", "auto")
    | Platform.other => ("libx264", "auto")

/-- The platform preference table of the spec (section 4.2), in order. -/
def prefTable : Platform → List (String × String)
  | Platform.darwin => [("h264_videotoolbox", "videotoolbox")]
  | Platform.windows => [("h264_nvenc", "cuda"), ("h264_qsv", "qsv")]
  | Platform.linux => [("h264_nvenc", "cuda"), ("h264_vaapi", "vaapi")]
  | Platform.other => []

/-- Modelled from the spec: selection is first-match of the platform's
preference order against the reported capability list, with the
software fallback when nothing matches. -/
def specFirstMatch (plat : Platform) (encoders : String) : String × String :=
  match (prefTable plat).find? (fun p => hasSubS p.1 encoders) with
  | some p => p
  | none => ("libx264", "auto")

/-- The hardware encoder identifier strings the code substring-matches. -/
def hwIds : List String := ["h264_videotoolbox", "h264_nvenc", "h264_qsv", "h264_vaapi"]

/-- The -vf argument string built in run (src/main.py line 208). -/
def vfExpr (cycle take : ℕ) : String :=
  "select=\x27between(mod(t," ++ toString cycle ++ "),0," ++ toString take
    ++ ")\x27, setpts=N/FRAME_RATE/TB"

/-- The -af argument string built in run (src/main.py line 211). -/
def afExpr (cycle take : ℕ) : String :=
  "aselect=\x27between(mod(t," ++ toString cycle ++ "),0," ++ toString take
    ++ ")\x27, asetpts=N/SR/TB"

/-- The hardware-acceleration segment (src/main.py lines 198-199):
present only when the acceleration mode is not the literal auto. -/
def hwSegment (hwaccel : String) : List String :=
  if hwaccel ≠ "auto" then ["-hwaccel", hwaccel] else []

/-- Encoder-specific tuning flags (src/main.py lines 217-236). -/
def tuningFlags (venc : String) : List String :=
  if venc = "libx264" then ["-preset", "fast", "-crf", "23"]
  else if venc = "h264_videotoolbox" then ["-b:v", "5000k", "-allow_sw", "1"]
  else if hasSubS "nvenc" venc then ["-preset", "fast", "-cq", "23"]
  else if hasSubS "qsv" venc then ["-preset", "fast", "-global_quality", "23"]
  else []

/-- The full transcode argument vector assembled in run
(src/main.py lines 190-251), with cycle = take + skip. -/
def buildCmd (fpath inputPath outputPath : String) (take skip : ℕ)
    (venc hwaccel : String) : List String :=
  [fpath]
    ++ hwSegment hwaccel
    ++ ["-i", inputPath]
    ++ ["-threads", "0"]
    ++ ["-vf", vfExpr (take + skip) take]
    ++ ["-af", afExpr (take + skip) take]
    ++ ["-c:v", venc]
    ++ tuningFlags venc
    ++ ["-c:a", "aac", "-b:a", "128k", "-avoid_negative_ts", "make_zero",
        "-max_muxing_queue_size", "9999", "-fflags", "+genpts", "-movflags", "+faststart",
        "-progress", "pipe:1", "-y", outputPath]

/-- Outcome of the metadata subprocess of get_video_duration: error is
any raised exception (non-zero exit, unparsable JSON, missing duration
field); ok d is a successfully parsed duration value. -/
inductive ProbeOutcome where
  | error
  | ok (d : ℚ)
deriving DecidableEq

/-- VideoProcessor.get_video_duration (src/main.py lines 80-91): any
failure is swallowed by the bare except and becomes the sentinel 0. -/
def get_video_duration : ProbeOutcome → ℚ
  | ProbeOutcome.error => 0
  | ProbeOutcome.ok d => d

/-- The mutable supervisor fields touched by pause/resume/cancel:
is_paused, is_cancelled, whether self.process is attached (non-None),
and whether the output file currently exists on disk. -/
structure SupState where
  is_paused : Bool
  is_cancelled : Bool
  hasProc : Bool
  outputExists : Bool
deriving DecidableEq, Repr

/-- VideoProcessor.pause_processing (src/main.py lines 140-146): sets
the paused flag, signals the child only if one is attached, and always
emits a status update and the paused signal. -/
def pause_processing (st : SupState) : SupState × List Act :=
  (⟨true, st.is_cancelled, st.hasProc, st.outputExists⟩,
    (if st.hasProc then [Act.sigStop] else [])
      ++ [Act.emit (Event.status "⏸️ Processing paused"), Act.emit Event.pausedSig])

/-- VideoProcessor.resume_processing (src/main.py lines 148-153). -/
def resume_processing (st : SupState) : SupState × List Act :=
  (⟨false, st.is_cancelled, st.hasProc, st.outputExists⟩,
    (if st.hasProc then [Act.sigCont] else [])
      ++ [Act.emit (Event.status "▶️ Processing resumed")])

/-- VideoProcessor.cancel_processing (src/main.py lines 155-171):
terminates and waits for the child if attached, best-effort removes the
output file (removeFails models os.remove raising: the error is printed
and the file stays), then emits status, the cancelled signal and the
finished(false) terminal event. -/
def cancel_processing (st : SupState) (removeFails : Bool) : SupState × List Act :=
  let st1 : SupState := ⟨st.is_paused, true, st.hasProc, st.outputExists⟩
  let procActs := if st1.hasProc then [Act.termChild, Act.waitChild] else []
  let fileRes : SupState × List Act :=
    if st1.outputExists then
      if removeFails then (st1, [Act.logMsg "Error removing incomplete file"])
      else (⟨st1.is_paused, st1.is_cancelled, st1.hasProc, false⟩, [Act.removeOutput])
    else (st1, [])
  (fileRes.1,
    procActs ++ fileRes.2
      ++ [Act.emit (Event.status "❌ Processing cancelled"),
          Act.emit Event.cancelledSig,
          Act.emit (Event.finished false "Processing was cancelled by user")])

/-- The frame-counter status emission of the read loop
(src/main.py lines 304-310), suppressed while paused. -/
def frameEvts (paused : Bool) (line : String) : List Event :=
  if hasSubS "frame=" line && !paused then
    match frameScan line.data with
    | some n => [Event.status ("🎞️ Processing frame " ++ toString n ++ "...")]
    | none => []
  else []

/-- One iteration of the read loop body (src/main.py lines 283-310) on
one output line, given the last emitted percent c: a progress event is
emitted only when the new percent strictly exceeds c (followed by a
status update unless paused, and the time display); the frame status
check runs on every non-blank line. -/
def stepLine (dur : ℚ) (paused : Bool) (c : ℤ) (line : String) : ℤ × List Event :=
  if nonBlank line then
    match parse_ffmpeg_progress line with
    | some t =>
      let p := progressOf dur t
      if c < p then
        (p, Event.progress p
              :: ((if paused then [] else
                    [Event.status ("🔄 Processing... " ++ toString p ++ "%")])
                  ++ [Event.timeInfo (format_time t ++ " / " ++ format_time dur)]
                  ++ frameEvts paused line))
      else (c, frameEvts paused line)
    | none => (c, frameEvts paused line)
  else (c, [])

/-- The whole read loop over the child's output lines, threading the
last emitted percent (current_progress, initially 0 in run). -/
def runLoop (dur : ℚ) (paused : Bool) : ℤ → List String → ℤ × List Event
  | c, [] => (c, [])
  | c, line :: rest =>
    let s := stepLine dur paused c line
    let r := runLoop dur paused s.1 rest
    (r.1, s.2 ++ r.2)

/-- The percent carried by a progress event, if any. -/
def pvOf : Event → Option ℤ
  | Event.progress p => some p
  | _ => none

/-- The sequence of emitted progress percent values of an event list. -/
def progressVals (evs : List Event) : List ℤ := evs.filterMap pvOf

/-- VideoProcessor.run (src/main.py lines 173-332) on the uncancelled,
unpaused path, as the list of its observable actions: dur is the probed
total duration, lines the child's output lines, exitCode and stderrTail
the child's exit status and captured error stream.  A probed duration
of 0 fails the job before any process is spawned; on exit code 0 a
final 100 percent snapshot is forced before the success terminal event. -/
def run_model (fpath inp outp : String) (take skip : ℕ) (dur : ℚ)
    (venc hwaccel : String) (lines : List String) (exitCode : ℤ)
    (stderrTail : String) : List Act :=
  if dur = 0 then
    [Act.emit (Event.status "📊 Analyzing video..."),
     Act.emit (Event.finished false "Could not determine video duration")]
  else
    [Act.emit (Event.status "📊 Analyzing video..."),
     Act.emit (Event.status ("🚀 Using " ++ venc ++ " encoder with " ++ hwaccel
       ++ " acceleration...")),
     Act.emit (Event.status "🔄 Starting FFmpeg process..."),
     Act.spawn (buildCmd fpath inp outp take skip venc hwaccel)]
      ++ ((runLoop dur false 0 lines).2.map Act.emit)
      ++ (if exitCode = 0 then
            [Act.emit (Event.progress 100),
             Act.emit (Event.status "✅ Processing completed!"),
             Act.emit (Event.timeInfo "Complete!"),
             Act.emit (Event.finished true "Video processed successfully!")]
          else
            [Act.emit (Event.finished false ("FFmpeg failed with return code "
              ++ toString exitCode
              ++ (if stderrTail ≠ "" then "\nError: " ++ stderrTail else "")))])

/-- Cancellation landing while run is in its read loop: the caller's
thread invokes cancel_processing directly (first call), the read loop
observes is_cancelled and breaks, and the post-loop else branch of run
(src/main.py line 329) invokes cancel_processing a second time.
Returns the final supervisor state and the combined action trace. -/
def cancel_scenario (dur : ℚ) (consumed : List String) : SupState × List Act :=
  let st0 : SupState := ⟨false, false, true, true⟩
  let loopActs := ((runLoop dur false 0 consumed).2).map Act.emit
  let r1 := cancel_processing st0 false
  let r2 := cancel_processing r1.1 false
  (r2.1, loopActs ++ r1.2 ++ r2.2)

/-- Is this action a terminal lifecycle emission (a finished signal)? -/
def isTerminalEmit : Act → Bool
  | Act.emit (Event.finished _ _) => true
  | _ => false

/-- Is this action the emission of a 100 percent progress event? -/
def isProgress100 : Act → Bool
  | Act.emit (Event.progress p) => p == 100
  | _ => false

/-- The batch fields touched by on_processing_finished: the selected
files, the current index, and the processing/paused flags. -/
structure BatchState where
  files : List String
  current : ℕ
  is_processing : Bool
  is_paused : Bool
deriving DecidableEq, Repr

/-- VideoIntervalCutter.on_processing_finished (src/main.py lines
982-1014), reduced to its sequencing effect: increment the index, stop
if processing was externally stopped or the list is exhausted, else
schedule the next job (the returned Bool). -/
def on_processing_finished (st : BatchState) (success : Bool) (message : String) :
    BatchState × Bool :=
  let st1 : BatchState := ⟨st.files, st.current + 1, st.is_processing, st.is_paused⟩
  if st1.is_processing = false then (st1, false)
  else if st.files.length ≤ st1.current then
    (⟨st1.files, st1.current, false, false⟩, false)
  else (st1, true)

/-- The spec's scenario line of supervised-tool output. -/
def lineEx : String :=
  "frame=  120 fps=25 q=28.0 size=    1024kB time=00:00:12.50 bitrate= 671.1kbits/s speed=1.2x"

@[simp] theorem progressVals_nil : progressVals [] = [] := rfl

@[simp] theorem progressVals_append (l1 l2 : List Event) :
    progressVals (l1 ++ l2) = progressVals l1 ++ progressVals l2 := by
  simp [progressVals]

theorem progressVals_cons_progress (p : ℤ) (l : List Event) :
    progressVals (Event.progress p :: l) = p :: progressVals l := by
  simp [progressVals, List.filterMap_cons, pvOf]

theorem progressVals_cons_status (s : String) (l : List Event) :
    progressVals (Event.status s :: l) = progressVals l := by
  simp [progressVals, List.filterMap_cons, pvOf]

theorem progressVals_cons_timeInfo (s : String) (l : List Event) :
    progressVals (Event.timeInfo s :: l) = progressVals l := by
  simp [progressVals, List.filterMap_cons, pvOf]

theorem frameEvts_no_progress (paused : Bool) (line : String) :
    progressVals (frameEvts paused line) = [] := by
  unfold frameEvts
  split
  · cases hf : frameScan line.data <;>
      simp [hf, progressVals, List.filterMap_cons, pvOf]
  · simp

theorem timeScan_sound (cs : List Char) (r : ℕ × ℕ × ℕ × ℕ) (h : timeScan cs = some r) :
    ∃ i, timeAt (List.drop i cs) = some r := by
  induction cs with
  | nil => simp [timeScan] at h
  | cons c rest ih =>
    simp only [timeScan] at h
    cases hta : timeAt (c :: rest) with
    | some r2 =>
      rw [hta] at h
      simp only [Option.some.injEq] at h
      exact ⟨0, by rw [List.drop_zero, hta, h]⟩
    | none =>
      rw [hta] at h
      obtain ⟨i, hi⟩ := ih h
      exact ⟨i + 1, by simpa using hi⟩

theorem timeScan_complete (cs : List Char) (i : ℕ)
    (h : (timeAt (List.drop i cs)).isSome = true) : (timeScan cs).isSome = true := by
  induction cs generalizing i with
  | nil => simp [timeAt] at h
  | cons c rest ih =>
    simp only [timeScan]
    cases hta : timeAt (c :: rest) with
    | some r2 => simp
    | none =>
      cases i with
      | zero => rw [List.drop_zero] at h; rw [hta] at h; simp at h
      | succ j =>
        rw [List.drop_succ_cons] at h
        simpa using ih j h

theorem stepLine_spec (dur : ℚ) (paused : Bool) (c : ℤ) (line : String) :
    (progressVals (stepLine dur paused c line).2 = [] ∧ (stepLine dur paused c line).1 = c)
    ∨ (progressVals (stepLine dur paused c line).2 = [(stepLine dur paused c line).1]
        ∧ c < (stepLine dur paused c line).1 ∧ (stepLine dur paused c line).1 ≤ 100) := by
  unfold stepLine
  split
  · cases hp : parse_ffmpeg_progress line with
    | none => simp [hp, frameEvts_no_progress]
    | some t =>
      simp only [hp]
      split
      · right
        refine ⟨?_, by assumption, min_le_right _ _⟩
        cases paused <;>
          simp [progressVals_cons_progress, progressVals_cons_status,
            progressVals_cons_timeInfo, frameEvts_no_progress]
      · left
        exact ⟨frameEvts_no_progress paused line, rfl⟩
  · simp

theorem runLoop_inv (dur : ℚ) (paused : Bool) (lines : List String) : ∀ c : ℤ,
    (∀ p ∈ progressVals (runLoop dur paused c lines).2, c < p ∧ p ≤ 100)
    ∧ List.Chain' (fun a b => a < b) (progressVals (runLoop dur paused c lines).2) := by
  induction lines with
  | nil => intro c; simp [runLoop]
  | cons line rest ih =>
    intro c
    simp only [runLoop, progressVals_append]
    rcases stepLine_spec dur paused c line with ⟨h1, h2⟩ | ⟨h1, h2, h3⟩
    · rw [h1, h2, List.nil_append]
      exact ih c
    · rw [h1]
      obtain ⟨ihall, ihchain⟩ := ih (stepLine dur paused c line).1
      constructor
      · intro p hp
        rcases List.mem_cons.mp hp with rfl | hp2
        · exact ⟨h2, h3⟩
        · obtain ⟨hlt, hle⟩ := ihall p hp2
          exact ⟨h2.trans hlt, hle⟩
      · rw [List.singleton_append]
        refine List.chain'_cons'.mpr ⟨?_, ihchain⟩
        intro b hb
        exact (ihall b (List.mem_of_mem_head? hb)).1

/-- Claim C7: the Progress Parser is a pure total function on single
lines.  parse_ffmpeg_progress is a total Lean function (so it never
raises and gives the same line the same signal); it returns a signal
exactly when the line contains an occurrence of the pattern
time=HH:MM:SS.hh, and any returned value equals
HH*3600 + MM*60 + SS + hh/100 for the digit groups of an actual
occurrence of the pattern in the line. -/
theorem C7_parser_pure_total (line : String) :
    ((parse_ffmpeg_progress line).isSome = true
      ↔ ∃ i, (timeAt (line.data.drop i)).isSome = true)
    ∧ (∀ v, parse_ffmpeg_progress line = some v →
        ∃ i h m s f, timeAt (line.data.drop i) = some (h, m, s, f)
          ∧ v = (h : ℚ) * 3600 + (m : ℚ) * 60 + (s : ℚ) + (f : ℚ) / 100) := by
  constructor
  · constructor
    · intro hp
      unfold parse_ffmpeg_progress at hp
      cases hts : timeScan line.data with
      | none => rw [hts] at hp; simp at hp
      | some r =>
        obtain ⟨i, hi⟩ := timeScan_sound _ _ hts
        exact ⟨i, by simp [hi]⟩
    · rintro ⟨i, hi⟩
      have hscan := timeScan_complete line.data i hi
      unfold parse_ffmpeg_progress
      cases hts : timeScan line.data with
      | none => rw [hts] at hscan; simp at hscan
      | some r => obtain ⟨h, m, s, f⟩ := r; simp
  · intro v hv
    unfold parse_ffmpeg_progress at hv
    cases hts : timeScan line.data with
    | none => rw [hts] at hv; simp at hv
    | some r =>
      rw [hts] at hv
      obtain ⟨h, m, s, f⟩ := r
      obtain ⟨i, hi⟩ := timeScan_sound _ _ hts
      simp only [Option.some.injEq] at hv
      exact ⟨i, h, m, s, f, hi, hv.symm⟩

/-- Witness for C7 at the spec's scenario line: the parser finds
time=00:00:12.50 and returns 12.5 seconds. -/
theorem C7_witness :
    (parse_ffmpeg_progress lineEx).isSome = true
    ∧ parse_ffmpeg_progress lineEx = some (25 / 2 : ℚ) := by
  constructor
  · exact (C7_parser_pure_total lineEx).1.mpr ⟨42, by decide⟩
  · have hts : timeScan lineEx.data = some (0, 0, 12, 50) := by decide
    unfold parse_ffmpeg_progress
    rw [hts]
    norm_num

/-- Claim C3: for parsed elapsed e at least 0 and probed duration d
positive, the percent computed in the read loop equals
min(100, floor(e / d * 100)) and lies in [0, 100].  The code computes
min(int(e / d * 100), 100); int() truncates toward zero, which on the
nonnegative quotient coincides with floor. -/
theorem C3_percent_clamped (e d : ℚ) (he : 0 ≤ e) (hd : 0 < d) :
    progressOf d e = min 100 ⌊e / d * 100⌋
    ∧ 0 ≤ progressOf d e ∧ progressOf d e ≤ 100 := by
  have hq : 0 ≤ e / d * 100 := by positivity
  have hfl : (0 : ℤ) ≤ ⌊e / d * 100⌋ := Int.floor_nonneg.mpr hq
  unfold progressOf pyInt
  rw [if_pos hq]
  exact ⟨min_comm _ _, le_min hfl (by norm_num), min_le_right _ _⟩

/-- Witness for C3 at the spec's scenario: elapsed 12.5 with total
duration 25 gives percent 50. -/
theorem C3_witness :
    progressOf 25 (25 / 2) = min 100 ⌊(25 / 2 : ℚ) / 25 * 100⌋
    ∧ progressOf 25 (25 / 2) = 50 := by
  refine ⟨(C3_percent_clamped (25 / 2) 25 (by norm_num) (by norm_num)).1, ?_⟩
  unfold progressOf pyInt
  norm_num

/-- Claim C4: within one job's read loop (any duration, any pause flag,
any sequence of output lines, starting from current_progress = 0), the
sequence of emitted progress percent values is strictly increasing and
every emitted value lies in [0, 100]. -/
theorem C4_progress_strictly_increasing (dur : ℚ) (paused : Bool) (lines : List String) :
    List.Chain' (fun a b => a < b) (progressVals (runLoop dur paused 0 lines).2)
    ∧ ∀ p ∈ progressVals (runLoop dur paused 0 lines).2, 0 ≤ p ∧ p ≤ 100 := by
  obtain ⟨hall, hchain⟩ := runLoop_inv dur paused lines 0
  exact ⟨hchain, fun p hp => ⟨le_of_lt (hall p hp).1, (hall p hp).2⟩⟩

/-- Witness for C4 at the spec's scenario line with duration 25: the
loop emits exactly the strictly increasing, in-range sequence [50]. -/
theorem C4_witness :
    List.Chain' (fun a b => a < b) (progressVals (runLoop 25 false 0 [lineEx]).2)
    ∧ ∀ p ∈ progressVals (runLoop 25 false 0 [lineEx]).2, 0 ≤ p ∧ p ≤ 100 :=
  C4_progress_strictly_increasing 25 false [lineEx]

/-- Counterexample to claim C1 as stated: the emitted filter arguments
for take=5, skip=10 encode between(mod(t,15),0,5), and the external
tool's between is inclusive at both endpoints, so a sample at t = 5
(time-modulo exactly take = 5, which lies in the claimed never-selected
interval [take, cycle)) IS selected. -/
theorem C1_counterexample :
    selectKeeps 5 10 5 = true
    ∧ (5 : ℚ) ≤ vmod 5 ((5 : ℚ) + 10) ∧ vmod (5 : ℚ) ((5 : ℚ) + 10) < (5 : ℚ) + 10
    ∧ vfExpr (5 + 10) 5 = "select=\x27between(mod(t,15),0,5)\x27, setpts=N/FRAME_RATE/TB"
    ∧ afExpr (5 + 10) 5 = "aselect=\x27between(mod(t,15),0,5)\x27, asetpts=N/SR/TB" := by
  refine ⟨?_, ?_, ?_, rfl, rfl⟩
  · simp only [selectKeeps, ffBetween, vmod, decide_eq_true_eq]
    norm_num
  · unfold vmod; norm_num
  · unfold vmod; norm_num

/-- Claim C1 as amended: for take, skip at least 1 the Command Builder
sets cycle = take + skip and emits adjacent video and audio selection
expressions encoding between(mod(t,cycle),0,take); that predicate
retains exactly the samples whose time-modulo lies in the CLOSED
interval [0, take], and never selects a sample whose time-modulo lies
in the open interval (take, cycle). -/
theorem C1_amended_select_window (take skip : ℕ) (ht : 1 ≤ take) (hs : 1 ≤ skip)
    (fpath inp outp venc hwaccel : String) :
    (∃ l1 l2, buildCmd fpath inp outp take skip venc hwaccel
        = l1 ++ ["-vf", vfExpr (take + skip) take, "-af", afExpr (take + skip) take] ++ l2)
    ∧ (∀ t : ℚ, selectKeeps take skip t = true ↔
        0 ≤ vmod t ((take : ℚ) + (skip : ℚ)) ∧ vmod t ((take : ℚ) + (skip : ℚ)) ≤ (take : ℚ))
    ∧ (∀ t : ℚ, (take : ℚ) < vmod t ((take : ℚ) + (skip : ℚ)) →
        selectKeeps take skip t = false) := by
  refine ⟨⟨[fpath] ++ hwSegment hwaccel ++ ["-i", inp, "-threads", "0"],
      ["-c:v", venc] ++ tuningFlags venc
        ++ ["-c:a", "aac", "-b:a", "128k", "-avoid_negative_ts", "make_zero",
            "-max_muxing_queue_size", "9999", "-fflags", "+genpts", "-movflags", "+faststart",
            "-progress", "pipe:1", "-y", outp], ?_⟩, ?_, ?_⟩
  · simp [buildCmd]
  · intro t
    simp [selectKeeps, ffBetween, decide_eq_true_eq]
  · intro t hgt
    simp only [selectKeeps, ffBetween, decide_eq_false_iff_not]
    rintro ⟨-, hle⟩
    exact absurd hle (not_le.mpr hgt)

/-- Witness for the amended C1 at take=5, skip=10. -/
theorem C1_amended_witness :
    (∃ l1 l2, buildCmd "ffmpeg" "in.mp4" "out.mp4" 5 10 "libx264" "auto"
        = l1 ++ ["-vf", vfExpr 15 5, "-af", afExpr 15 5] ++ l2)
    ∧ (∀ t : ℚ, selectKeeps 5 10 t = true ↔
        0 ≤ vmod t ((5 : ℚ) + 10) ∧ vmod t ((5 : ℚ) + 10) ≤ (5 : ℚ))
    ∧ (∀ t : ℚ, (5 : ℚ) < vmod t ((5 : ℚ) + 10) → selectKeeps 5 10 t = false) :=
  C1_amended_select_window 5 10 (by norm_num) (by norm_num) "ffmpeg" "in.mp4" "out.mp4"
    "libx264" "auto"

/-- Claim C6: if the capability probe fails (probe = none), or the
reported capability text contains none of the hardware encoder
identifier strings, the Encoder Selector returns the software fallback
(libx264 with acceleration mode auto, the mode for which the Command
Builder emits no acceleration flag: the spec names this pair
(software-x264, none)), on every platform; and on every successful
probe the result is the first match of the platform's preference order
against the capability text. -/
theorem C6_encoder_fallback (plat : Platform) (probe : Option String) :
    (probe = none → get_optimal_encoder plat probe = ("libx264", "auto"))
    ∧ (∀ s, probe = some s → (∀ idStr ∈ hwIds, hasSubS idStr s = false) →
        get_optimal_encoder plat probe = ("libx264", "auto"))
    ∧ (∀ s, probe = some s → get_optimal_encoder plat probe = specFirstMatch plat s)
    ∧ hwSegment "auto" = [] := by
  refine ⟨?_, ?_, ?_, rfl⟩
  · rintro rfl; rfl
  · rintro s rfl hnone
    have h1 := hnone "h264_videotoolbox" (by simp [hwIds])
    have h2 := hnone "h264_nvenc" (by simp [hwIds])
    have h3 := hnone "h264_qsv" (by simp [hwIds])
    have h4 := hnone "h264_vaapi" (by simp [hwIds])
    cases plat <;> simp [get_optimal_encoder, h1, h2, h3, h4]
  · rintro s rfl
    cases plat with
    | darwin =>
      by_cases h1 : hasSubS "h264_videotoolbox" s = true <;>
        simp_all [get_optimal_encoder, specFirstMatch, prefTable, List.find?]
    | windows =>
      by_cases h1 : hasSubS "h264_nvenc" s = true <;>
        by_cases h2 : hasSubS "h264_qsv" s = true <;>
        simp_all [get_optimal_encoder, specFirstMatch, prefTable, List.find?]
    | linux =>
      by_cases h1 : hasSubS "h264_nvenc" s = true <;>
        by_cases h2 : hasSubS "h264_vaapi" s = true <;>
        simp_all [get_optimal_encoder, specFirstMatch, prefTable, List.find?]
    | other => simp [get_optimal_encoder, specFirstMatch, prefTable, List.find?]

/-- Witness for C6: a capability text with no hardware identifier on
Linux yields the software fallback. -/
theorem C6_witness :
    get_optimal_encoder Platform.linux (some "V..... libx264    software H.264 only")
      = ("libx264", "auto") :=
  (C6_encoder_fallback Platform.linux (some "V..... libx264    software H.264 only")).2.1
    "V..... libx264    software H.264 only" rfl (by decide)

/-- Counterexample to claim C8 as stated: with no child process
attached and is_paused false, pause() changes the supervisor state (it
sets is_paused) and emits a status event and the paused signal, so it
is neither a state no-op nor emission-free. -/
theorem C8_counterexample :
    (pause_processing ⟨false, false, false, false⟩).1 ≠ (⟨false, false, false, false⟩ : SupState)
    ∧ (pause_processing ⟨false, false, false, false⟩).2 ≠ ([] : List Act) := by
  constructor <;> decide

/-- Claim C8 as amended: when no child process is attached, pause() and
resume() deliver no signal to any process, and repeating either call
yields the same state and the same emissions (idempotence); but each
still flips the paused flag (touching no other field) and still emits:
pause a status event plus the paused signal, resume a status event. -/
theorem C8_amended_pause_resume (st : SupState) (h : st.hasProc = false) :
    (Act.sigStop ∉ (pause_processing st).2 ∧ Act.sigCont ∉ (resume_processing st).2)
    ∧ (pause_processing st).1 = ⟨true, st.is_cancelled, st.hasProc, st.outputExists⟩
    ∧ (resume_processing st).1 = ⟨false, st.is_cancelled, st.hasProc, st.outputExists⟩
    ∧ pause_processing (pause_processing st).1 = ((pause_processing st).1, (pause_processing st).2)
    ∧ resume_processing (resume_processing st).1
        = ((resume_processing st).1, (resume_processing st).2)
    ∧ (pause_processing st).2
        = [Act.emit (Event.status "⏸️ Processing paused"), Act.emit Event.pausedSig]
    ∧ (resume_processing st).2 = [Act.emit (Event.status "▶️ Processing resumed")] := by
  simp [pause_processing, resume_processing, h]

/-- Witness for the amended C8 at a concrete detached supervisor state. -/
theorem C8_witness :
    (Act.sigStop ∉ (pause_processing ⟨false, false, false, false⟩).2
      ∧ Act.sigCont ∉ (resume_processing ⟨false, false, false, false⟩).2)
    ∧ (pause_processing ⟨false, false, false, false⟩).1 = (⟨true, false, false, false⟩ : SupState)
    ∧ (resume_processing ⟨false, false, false, false⟩).1
        = (⟨false, false, false, false⟩ : SupState)
    ∧ pause_processing (pause_processing ⟨false, false, false, false⟩).1
        = ((pause_processing ⟨false, false, false, false⟩).1,
           (pause_processing ⟨false, false, false, false⟩).2)
    ∧ resume_processing (resume_processing ⟨false, false, false, false⟩).1
        = ((resume_processing ⟨false, false, false, false⟩).1,
           (resume_processing ⟨false, false, false, false⟩).2)
    ∧ (pause_processing ⟨false, false, false, false⟩).2
        = [Act.emit (Event.status "⏸️ Processing paused"), Act.emit Event.pausedSig]
    ∧ (resume_processing ⟨false, false, false, false⟩).2
        = [Act.emit (Event.status "▶️ Processing resumed")] :=
  C8_amended_pause_resume ⟨false, false, false, false⟩ rfl

/-- Claim C10: the Duration Probe never raises (it is a total function
of the probe outcome): every failure becomes the sentinel 0, a genuine
metadata duration of 0 gives the same sentinel, and run treats both
identically, terminating the job as Failed with the message about not
determining the duration, before any process is spawned. -/
theorem C10_probe_sentinel (fpath inp outp : String) (take skip : ℕ)
    (venc hwaccel : String) (lines : List String) (ec : ℤ) (tail : String) :
    get_video_duration ProbeOutcome.error = 0
    ∧ (∀ d : ℚ, get_video_duration (ProbeOutcome.ok d) = d)
    ∧ get_video_duration ProbeOutcome.error = get_video_duration (ProbeOutcome.ok 0)
    ∧ run_model fpath inp outp take skip (get_video_duration ProbeOutcome.error)
        venc hwaccel lines ec tail
      = [Act.emit (Event.status "📊 Analyzing video..."),
         Act.emit (Event.finished false "Could not determine video duration")]
    ∧ run_model fpath inp outp take skip (get_video_duration (ProbeOutcome.ok 0))
        venc hwaccel lines ec tail
      = [Act.emit (Event.status "📊 Analyzing video..."),
         Act.emit (Event.finished false "Could not determine video duration")] := by
  refine ⟨rfl, fun d => rfl, rfl, ?_, ?_⟩ <;> simp [run_model, get_video_duration]

/-- Claim C9: when the Duration Probe fails the job emits only the
analyzing status and the Failed terminal event (no process is ever
spawned), and the Batch Sequencer, told that the current job finished
unsuccessfully while processing continues and further files remain,
advances the index by one and schedules the next job. -/
theorem C9_probe_fail_batch_advances (fpath inp outp : String) (take skip : ℕ)
    (venc hwaccel : String) (lines : List String) (ec : ℤ) (tail msg : String)
    (st : BatchState) (hproc : st.is_processing = true)
    (hlen : st.current + 1 < st.files.length) :
    run_model fpath inp outp take skip (get_video_duration ProbeOutcome.error)
        venc hwaccel lines ec tail
      = [Act.emit (Event.status "📊 Analyzing video..."),
         Act.emit (Event.finished false "Could not determine video duration")]
    ∧ (∀ cmd, Act.spawn cmd ∉ run_model fpath inp outp take skip
        (get_video_duration ProbeOutcome.error) venc hwaccel lines ec tail)
    ∧ on_processing_finished st false msg
        = (⟨st.files, st.current + 1, true, st.is_paused⟩, true) := by
  refine ⟨by simp [run_model, get_video_duration], ?_, ?_⟩
  · intro cmd
    simp [run_model, get_video_duration]
  · unfold on_processing_finished
    rw [hproc]
    simp [not_le.mpr hlen, hproc]

/-- Witness for C9: the spec's scenario, a batch of three files whose
second job fails, still schedules the third. -/
theorem C9_witness :
    run_model "ffmpeg" "b.mp4" "out_b.mp4" 5 10 (get_video_duration ProbeOutcome.error)
        "libx264" "auto" [] 1 ""
      = [Act.emit (Event.status "📊 Analyzing video..."),
         Act.emit (Event.finished false "Could not determine video duration")]
    ∧ (∀ cmd, Act.spawn cmd ∉ run_model "ffmpeg" "b.mp4" "out_b.mp4" 5 10
        (get_video_duration ProbeOutcome.error) "libx264" "auto" [] 1 "")
    ∧ on_processing_finished ⟨["a.mp4", "b.mp4", "c.mp4"], 1, true, false⟩ false "probe failed"
        = (⟨["a.mp4", "b.mp4", "c.mp4"], 2, true, false⟩, true) :=
  C9_probe_fail_batch_advances "ffmpeg" "b.mp4" "out_b.mp4" 5 10 "libx264" "auto" [] 1 ""
    "probe failed" ⟨["a.mp4", "b.mp4", "c.mp4"], 1, true, false⟩ rfl (by norm_num)

/-- Counterexample to claim C5 as stated: with probed duration 10 and a
final loop line reporting time=00:00:10.00, the read loop already emits
a 100 percent event, and the post-loop success path unconditionally
emits a second one, so TWO 100 percent progress events precede the
Completed terminal event (which is emitted last). -/
theorem C5_counterexample :
    ((run_model "ffmpeg" "in.mp4" "out.mp4" 5 10 10 "libx264" "auto"
        ["time=00:00:10.00"] 0 "").countP isProgress100 = 2)
    ∧ (∃ l, run_model "ffmpeg" "in.mp4" "out.mp4" 5 10 10 "libx264" "auto"
          ["time=00:00:10.00"] 0 ""
        = l ++ [Act.emit (Event.finished true "Video processed successfully!")]) := by
  have hts : timeScan ("time=00:00:10.00").data = some (0, 0, 10, 0) := by decide
  have h10 : parse_ffmpeg_progress "time=00:00:10.00" = some (10 : ℚ) := by
    unfold parse_ffmpeg_progress
    rw [hts]
    norm_num
  have hprog : progressOf 10 (10 : ℚ) = 100 := by
    unfold progressOf pyInt
    norm_num
  have hnb : nonBlank "time=00:00:10.00" = true := by decide
  have hfr : hasSubS "frame=" "time=00:00:10.00" = false := by decide
  have h0 : (10 : ℚ) ≠ 0 := by norm_num
  constructor
  · simp [run_model, h0, runLoop, stepLine, hnb, h10, hprog, frameEvts, hfr,
      List.countP_append, List.countP_cons, isProgress100]
  · refine ⟨[Act.emit (Event.status "📊 Analyzing video..."),
      Act.emit (Event.status ("🚀 Using " ++ "libx264" ++ " encoder with " ++ "auto"
        ++ " acceleration...")),
      Act.emit (Event.status "🔄 Starting FFmpeg process..."),
      Act.spawn (buildCmd "ffmpeg" "in.mp4" "out.mp4" 5 10 "libx264" "auto")]
        ++ ((runLoop 10 false 0 ["time=00:00:10.00"]).2.map Act.emit)
        ++ [Act.emit (Event.progress 100),
            Act.emit (Event.status "✅ Processing completed!"),
            Act.emit (Event.timeInfo "Complete!")], ?_⟩
    simp [run_model, h0, List.append_assoc]

/-- Claim C5 as amended: on success exit (code 0) after the read loop,
for any nonzero probed duration, the supervisor unconditionally forces
a final 100 percent progress event, emitted immediately before the
Completed terminal event; so at least one 100 percent event precedes
Completed, but when the loop has already emitted 100 percent the forced
snapshot duplicates it, and exactly-one does not hold in general. -/
theorem C5_amended_forced_final (fpath inp outp : String) (take skip : ℕ) (dur : ℚ)
    (venc hwaccel : String) (lines : List String) (tail : String) (hd : dur ≠ 0) :
    ∃ l, run_model fpath inp outp take skip dur venc hwaccel lines 0 tail
      = l ++ [Act.emit (Event.progress 100),
              Act.emit (Event.status "✅ Processing completed!"),
              Act.emit (Event.timeInfo "Complete!"),
              Act.emit (Event.finished true "Video processed successfully!")] := by
  refine ⟨[Act.emit (Event.status "📊 Analyzing video..."),
      Act.emit (Event.status ("🚀 Using " ++ venc ++ " encoder with " ++ hwaccel
        ++ " acceleration...")),
      Act.emit (Event.status "🔄 Starting FFmpeg process..."),
      Act.spawn (buildCmd fpath inp outp take skip venc hwaccel)]
        ++ ((runLoop dur false 0 lines).2.map Act.emit), ?_⟩
  simp [run_model, hd, List.append_assoc]

/-- Witness for the amended C5 at concrete inputs with duration 30. -/
theorem C5_amended_witness :
    ∃ l, run_model "ffmpeg" "in.mp4" "out.mp4" 5 10 30 "libx264" "auto" [] 0 ""
      = l ++ [Act.emit (Event.progress 100),
              Act.emit (Event.status "✅ Processing completed!"),
              Act.emit (Event.timeInfo "Complete!"),
              Act.emit (Event.finished true "Video processed successfully!")] :=
  C5_amended_forced_final "ffmpeg" "in.mp4" "out.mp4" 5 10 30 "libx264" "auto" [] ""
    (by norm_num)

/-- Claim C2 is right and the code violates it: when cancel lands while
run is in its read loop, the direct cancel_processing call emits the
cancelled signal and the finished terminal event, and run's post-loop
else branch calls cancel_processing a second time, so the job's trace
holds TWO terminal finished emissions and two cancelled signals (the
spec forbids more than one).  The output file IS absent afterwards. -/
theorem C2_cancel_double_terminal :
    ((cancel_scenario 30 ["frame=   10 fps=25 q=28.0"]).2.filter isTerminalEmit).length = 2
    ∧ (cancel_scenario 30 ["frame=   10 fps=25 q=28.0"]).2.count (Act.emit Event.cancelledSig)
        = 2
    ∧ (cancel_scenario 30 ["frame=   10 fps=25 q=28.0"]).1.outputExists = false := by
  refine ⟨by decide, by decide, by decide⟩

end VideoCutter
